import Mathlib

/-!
Shallow embedding of `src/webscaper.py` (class `WebScraper`): a same-domain
recursive crawler.  External collaborators (the `requests` session, the file
system, `RobotFileParser`, `BeautifulSoup`, `urljoin`) are modelled as an
environment record of result-valued functions; the crawler's own control flow
is translated function by function.  The observable behaviour of a run is a
chronological trace of events (visited-set insertions, robots checks, fetch
attempts, file writes, log lines).
-/

namespace Webscaper

/-- One observable step of the crawler.  `visit` is `self.visited_urls.add(url)`
(line 109); `robotsCheck` is the network access made by `rp.read()` (line 42);
`fetchAttempt` is `self.session.get(url, ...)` (line 61); `saveFile` is the file
write in `save_page` (lines 73-76); `info`/`warn`/`error` are the
`logging.info/warning/error` calls. -/
inductive Event where
  | visit (url : String)
  | robotsCheck (url : String)
  | fetchAttempt (url : String)
  | saveFile (path : String) (content : String)
  | info (msg : String)
  | warn (msg : String)
  | error (msg : String)
deriving DecidableEq

/-- A `requests.RequestException` raised inside `download_page` (line 64):
either a connection/timeout failure from `session.get` or the bad-status
exception raised by `response.raise_for_status()` (line 62). -/
inductive FetchError where
  | networkError (msg : String)
  | statusError (code : Nat) (msg : String)
deriving DecidableEq

/-- The exception text interpolated into the log message `f"... {e}"`. -/
def FetchError.text : FetchError → String
  | .networkError m => m
  | .statusError _ m => m

/-- The external world of one run: configuration plus the outcome of every
call the crawler makes into its collaborators.
* `base_dir` — `self.base_dir` (the absolute base directory, line 25);
* `robotsResult url` — outcome of the `try` body of `can_fetch` (lines 38-44):
  the robots.txt retrieval and rule evaluation for `url`, `.error` when any
  exception is raised;
* `fetchResult url` — outcome of `session.get` + `raise_for_status`
  (lines 61-63);
* `writeResult path content` — outcome of `os.makedirs` + `open`/`write`
  (lines 73-76);
* `parseLinks content` — the `href` attributes produced in document order by
  `BeautifulSoup(...).find_all("a", href=True)` (lines 120-122), `.error` when
  parsing raises;
* `urljoin base href` — `urllib.parse.urljoin` (line 124). -/
structure Env where
  base_dir : String
  robotsResult : String → Except String Bool
  fetchResult : String → Except FetchError String
  writeResult : String → String → Except String Unit
  parseLinks : String → Except String (List String)
  urljoin : String → String → String

/-! ### `urllib.parse.urlparse`, modelled from the library's documented
behaviour for the attributes the source reads (`scheme`, `netloc`, `path`). -/

/-- Result of `urlparse`: the components the source code reads. -/
structure UrlParts where
  scheme : String
  netloc : String
  path : String
  query : String
  fragment : String
deriving DecidableEq

/-- Characters allowed in a URL scheme after the initial letter. -/
def isSchemeChar (c : Char) : Bool :=
  c.isAlpha || c.isDigit || c = '+' || c = '-' || c = '.'

/-- Split a character list at the first occurrence of `c`; `none` when `c`
does not occur.  Neither part contains that occurrence of `c`. -/
def splitAtChar (c : Char) : List Char → Option (List Char × List Char)
  | [] => none
  | x :: xs =>
    if x = c then some ([], xs)
    else
      match splitAtChar c xs with
      | some (a, b) => some (x :: a, b)
      | none => none

/-- `urllib.parse.urlparse`: scheme (lower-cased, only when the prefix before
the first `:` is a well-formed scheme), netloc (after `//`, up to the next
`/`, `?` or `#`), then fragment split at the first `#`, then query split at
the first `?`; the remainder is the path. -/
def urlparse (url : String) : UrlParts :=
  let cs := url.toList
  let (schemeCs, rest) :=
    match splitAtChar ':' cs with
    | some (pre, post) =>
      match pre with
      | [] => ([], cs)
      | p :: ps =>
        if p.isAlpha && ps.all isSchemeChar then ((p :: ps).map Char.toLower, post)
        else ([], cs)
    | none => ([], cs)
  let (netlocCs, rest2) :=
    match rest with
    | '/' :: '/' :: r =>
      let (n, r2) := r.span (fun c => !(c = '/' || c = '?' || c = '#'))
      (n, r2)
    | _ => ([], rest)
  let (beforeFrag, fragCs) :=
    match splitAtChar '#' rest2 with
    | some (a, b) => (a, b)
    | none => (rest2, [])
  let (pathCs, queryCs) :=
    match splitAtChar '?' beforeFrag with
    | some (a, b) => (a, b)
    | none => (beforeFrag, [])
  ⟨String.mk schemeCs, String.mk netlocCs, String.mk pathCs,
   String.mk queryCs, String.mk fragCs⟩

/-! ### `get_filename` (lines 82-98) and the bits of `os.path` it uses. -/

/-- `str.replace(a, b)` for a one-character pattern. -/
def replaceChar (s : String) (a b : Char) : String :=
  String.mk (s.toList.map (fun c => if c = a then b else c))

/-- Final path segment (the part after the last `/`). -/
def lastSegment (cs : List Char) : List Char :=
  (cs.reverse.takeWhile (fun c => !(c = '/'))).reverse

/-- Truthiness of `os.path.splitext(p)[1]`: the final segment has an
extension, where the leading dots of the segment never start one. -/
def hasExt (p : String) : Bool :=
  ((lastSegment p.toList).dropWhile (fun c => c = '.')).contains '.'

/-- `os.path.endswith('/')` on the path string. -/
def endsWithSlash (s : String) : Bool :=
  match s.toList.getLast? with
  | some c => c = '/'
  | none => false

/-- Whether the first character of `s` is `/`. -/
def startsWithSlash (s : String) : Bool :=
  match s.toList with
  | '/' :: _ => true
  | _ => false

/-- `os.path.join(base, rel)` for POSIX paths. -/
def joinPath (a b : String) : String :=
  if startsWithSlash b then b
  else if a = "" || endsWithSlash a then a ++ b
  else a ++ "/" ++ b

/-- `WebScraper.get_filename` (lines 82-98).  Note that `parsed_url.path`
excludes the query string, and the `?`/`&`/`=` replacements are applied to
that path only. -/
def get_filename (base_dir : String) (url : String) : String :=
  let parsed := urlparse url
  let path0 := parsed.path
  let path1 :=
    if path0 = "" || path0 = "/" then "/index.html"
    else if endsWithSlash path0 then path0 ++ "index.html"
    else if hasExt path0 then path0
    else path0 ++ ".html"
  let netloc := replaceChar parsed.netloc ':' '_'
  let path2 := replaceChar (replaceChar (replaceChar path1 '?' '_') '&' '_') '=' '_'
  joinPath base_dir (netloc ++ path2)

/-! ### The crawler proper (lines 35-135), threading an event trace. -/

/-- URLs added to `self.visited_urls`, in insertion order.  Membership in this
list is exactly the `url in self.visited_urls` test of line 106: plain string
equality, no normalisation. -/
def visitedOf : List Event → List String
  | [] => []
  | Event.visit u :: rest => u :: visitedOf rest
  | _ :: rest => visitedOf rest

/-- URLs submitted to `session.get`, in order of attempt. -/
def fetchesOf : List Event → List String
  | [] => []
  | Event.fetchAttempt u :: rest => u :: fetchesOf rest
  | _ :: rest => fetchesOf rest

/-- `WebScraper.can_fetch` (lines 35-48): run the robots.txt retrieval and
rule evaluation; on any exception, log a warning and default to allowing. -/
def can_fetch (env : Env) (url : String) (tr : List Event) : Bool × List Event :=
  match env.robotsResult url with
  | Except.ok allowed => (allowed, tr ++ [Event.robotsCheck url])
  | Except.error e =>
      (true, tr ++ [Event.robotsCheck url,
                    Event.warn ("Error checking robots.txt for " ++ url ++ ": " ++ e)])

/-- `WebScraper.download_page` (lines 50-67): a robots denial logs a warning
and returns `None`; otherwise the page is requested and any
`requests.RequestException` (connection failure or bad status) is caught,
logged and converted to `None`. -/
def download_page (env : Env) (url : String) (tr : List Event) :
    Option String × List Event :=
  match can_fetch env url tr with
  | (false, tr1) =>
      (none, tr1 ++ [Event.warn ("robots.txt disallows scraping: " ++ url)])
  | (true, tr1) =>
    let tr2 := tr1 ++ [Event.fetchAttempt url]
    match env.fetchResult url with
    | Except.ok text => (some text, tr2)
    | Except.error e =>
        (none, tr2 ++ [Event.error ("Failed to download " ++ url ++ ": "
                                      ++ FetchError.text e)])

/-- `WebScraper.save_page` (lines 69-80): write the content to the mapped
path; any exception is caught and logged, never re-raised. -/
def save_page (env : Env) (url : String) (content : String) (tr : List Event) :
    List Event :=
  let filename := get_filename env.base_dir url
  match env.writeResult filename content with
  | Except.ok _ =>
      tr ++ [Event.saveFile filename content,
             Event.info ("Saved: " ++ url ++ " -> " ++ filename)]
  | Except.error e =>
      tr ++ [Event.error ("Failed to save " ++ url ++ ": " ++ e)]

/-- The `for link in soup.find_all(...)` loop of lines 122-132: resolve each
href against the page URL, and recurse (`child`) exactly when the resolved
URL's netloc equals the page's netloc and its scheme is `http` or `https`. -/
def scrapeLinksAux (env : Env) (url : String)
    (child : String → List Event → List Event) :
    List String → List Event → List Event
  | [], tr => tr
  | href :: rest, tr =>
    let next := env.urljoin url href
    let tr' :=
      if (urlparse next).netloc = (urlparse url).netloc ∧
         (urlparse next).scheme ∈ ["http", "https"] then
        child next tr
      else tr
    scrapeLinksAux env url child rest tr'

/-- Body of `WebScraper.scrape_website` (lines 105-135) for a non-negative
depth, with the recursive call abstracted as `child` (the source calls
`self.scrape_website(next_url, depth - 1)`).  `depth` is only displayed in
the log line. -/
def scrapeCoreWith (env : Env) (depth : Nat)
    (child : String → List Event → List Event)
    (url : String) (tr : List Event) : List Event :=
  if url ∈ visitedOf tr then tr
  else
    let tr1 := tr ++ [Event.visit url,
                      Event.info ("Scraping (depth " ++ toString depth ++ "): " ++ url)]
    match download_page env url tr1 with
    | (none, tr2) => tr2
    | (some content, tr2) =>
      if content = "" then tr2
      else
        let tr3 := save_page env url content tr2
        match env.parseLinks content with
        | Except.error e =>
            tr3 ++ [Event.error ("Error parsing " ++ url ++ ": " ++ e)]
        | Except.ok hrefs => scrapeLinksAux env url child hrefs tr3

/-- `scrape_website` at depth `fuel ≥ 0`.  A child is entered at depth
`fuel - 1`; when `fuel = 0` that call has depth `-1 < 0` and returns at once
(line 106), so the child continuation is the identity. -/
def scrapeCore (env : Env) : Nat → String → List Event → List Event
  | 0, url, tr => scrapeCoreWith env 0 (fun _ t => t) url tr
  | f + 1, url, tr =>
      scrapeCoreWith env (f + 1) (fun u t => scrapeCore env f u t) url tr

/-- `WebScraper.scrape_website` (lines 100-135) with an explicit depth
argument (the `depth=None` default merely substitutes `self.max_depth`). -/
def scrape_website (env : Env) (url : String) (depth : Int) (tr : List Event) :
    List Event :=
  if depth < 0 then tr else scrapeCore env depth.toNat url tr

/-- The child continuation used by `scrapeCore` at depth `fuel`. -/
def childOf (env : Env) : Nat → String → List Event → List Event
  | 0 => fun _ t => t
  | f + 1 => fun u t => scrapeCore env f u t

/-! ### Trace predicates for the visited-before-network invariant. -/

/-- The URL an event talks to over the network, if any: the robots.txt
retrieval of `can_fetch` and the page request of `download_page`. -/
def netTarget : Event → Option String
  | Event.robotsCheck u => some u
  | Event.fetchAttempt u => some u
  | _ => none

/-- Given that the URLs of `vs` are already in the visited set, every network
event in the trace targets a URL that was inserted into the visited set at
some strictly earlier point. -/
def netOrderedFrom : List String → List Event → Bool
  | _, [] => true
  | vs, e :: rest =>
    (match netTarget e with
     | some u => decide (u ∈ vs)
     | none => true)
    && netOrderedFrom (vs ++ visitedOf [e]) rest

/-! ### Basic trace lemmas. -/

theorem visitedOf_append (a b : List Event) :
    visitedOf (a ++ b) = visitedOf a ++ visitedOf b := by
  induction a with
  | nil => simp [visitedOf]
  | cons e a ih => cases e <;> simp [visitedOf, ih]

theorem fetchesOf_append (a b : List Event) :
    fetchesOf (a ++ b) = fetchesOf a ++ fetchesOf b := by
  induction a with
  | nil => simp [fetchesOf]
  | cons e a ih => cases e <;> simp [fetchesOf, ih]

theorem visitedOf_cons_eq (e : Event) (l : List Event) :
    visitedOf (e :: l) = visitedOf [e] ++ visitedOf l := by
  cases e <;> simp [visitedOf]

theorem netOrderedFrom_append (a b : List Event) (vs : List String) :
    netOrderedFrom vs (a ++ b)
      = (netOrderedFrom vs a && netOrderedFrom (vs ++ visitedOf a) b) := by
  induction a generalizing vs with
  | nil => simp [netOrderedFrom, visitedOf]
  | cons e a ih =>
    rw [List.cons_append]
    show ((match netTarget e with
            | some u => decide (u ∈ vs)
            | none => true) && netOrderedFrom (vs ++ visitedOf [e]) (a ++ b)) = _
    rw [ih, visitedOf_cons_eq e a]
    show _ = ((match netTarget e with
            | some u => decide (u ∈ vs)
            | none => true) && netOrderedFrom (vs ++ visitedOf [e]) a
              && netOrderedFrom (vs ++ (visitedOf [e] ++ visitedOf a)) b)
    rw [Bool.and_assoc, List.append_assoc]

/-- In a well-ordered trace, every fetched URL was visited (or assumed
visited beforehand). -/
theorem fetch_mem_of_ordered (a : List Event) :
    ∀ vs : List String, netOrderedFrom vs a = true →
      ∀ u, u ∈ fetchesOf a → u ∈ vs ++ visitedOf a := by
  induction a with
  | nil => intro vs _ u hu; simp [fetchesOf] at hu
  | cons e a ih =>
    intro vs h u hu
    rw [netOrderedFrom, Bool.and_eq_true] at h
    cases e with
    | fetchAttempt w =>
      simp only [fetchesOf, List.mem_cons] at hu
      rcases hu with hu | hu
      · subst hu
        have : u ∈ vs := of_decide_eq_true h.1
        simp [visitedOf, List.mem_append, this]
      · have := ih vs (by simpa [visitedOf] using h.2) u hu
        simpa [visitedOf] using this
    | visit w =>
      have := ih (vs ++ [w]) (by simpa [visitedOf] using h.2) u
          (by simpa [fetchesOf] using hu)
      simp only [visitedOf, List.append_assoc, List.singleton_append] at this ⊢
      simpa using this
    | robotsCheck w =>
      have := ih vs (by simpa [visitedOf] using h.2) u (by simpa [fetchesOf] using hu)
      simpa [visitedOf] using this
    | saveFile p c =>
      have := ih vs (by simpa [visitedOf] using h.2) u (by simpa [fetchesOf] using hu)
      simpa [visitedOf] using this
    | info m =>
      have := ih vs (by simpa [visitedOf] using h.2) u (by simpa [fetchesOf] using hu)
      simpa [visitedOf] using this
    | warn m =>
      have := ih vs (by simpa [visitedOf] using h.2) u (by simpa [fetchesOf] using hu)
      simpa [visitedOf] using this
    | error m =>
      have := ih vs (by simpa [visitedOf] using h.2) u (by simpa [fetchesOf] using hu)
      simpa [visitedOf] using this

/-- The two-part run invariant of claim C1: every network event is preceded
by the insertion of its URL into the visited set, and no URL has been
submitted to two fetch attempts. -/
def Inv (tr : List Event) : Prop :=
  netOrderedFrom [] tr = true ∧ (fetchesOf tr).Nodup

/-- Extending a good trace by a block whose network events all target
already-visited URLs (and whose fetches are fresh) keeps the invariant. -/
theorem inv_extend (tr Δ : List Event) (h : Inv tr)
    (hnet : netOrderedFrom (visitedOf tr) Δ = true)
    (hfresh : ∀ u, u ∈ fetchesOf Δ → ¬ u ∈ visitedOf tr)
    (hnd : (fetchesOf Δ).Nodup) : Inv (tr ++ Δ) := by
  constructor
  · rw [netOrderedFrom_append, h.1, Bool.true_and]
    simpa using hnet
  · rw [fetchesOf_append]
    refine List.Nodup.append h.2 hnd ?_
    intro u hu hu'
    have hvis : u ∈ visitedOf tr := by
      have := fetch_mem_of_ordered tr [] h.1 u hu
      simpa using this
    exact hfresh u hu' hvis

/-- The link loop preserves the invariant whenever the child continuation
does. -/
theorem scrapeLinksAux_inv (env : Env) (url : String)
    (child : String → List Event → List Event)
    (hchild : ∀ u t, Inv t → Inv (child u t)) :
    ∀ (links : List String) (tr : List Event), Inv tr →
      Inv (scrapeLinksAux env url child links tr) := by
  intro links
  induction links with
  | nil => intro tr h; simpa [scrapeLinksAux] using h
  | cons href rest ih =>
    intro tr h
    simp only [scrapeLinksAux]
    split
    · exact ih _ (hchild _ _ h)
    · exact ih _ h

/-- One traversal step preserves the invariant: the URL is inserted before
the robots check and the fetch, and a fetch is only attempted for a URL that
was not yet visited. -/
theorem scrapeCoreWith_inv (env : Env) (n : Nat)
    (child : String → List Event → List Event)
    (hchild : ∀ u t, Inv t → Inv (child u t))
    (url : String) (tr : List Event) (h : Inv tr) :
    Inv (scrapeCoreWith env n child url tr) := by
  rw [scrapeCoreWith]
  by_cases hv : url ∈ visitedOf tr
  · simpa [hv] using h
  · rw [if_neg hv]
    cases hr : env.robotsResult url with
    | ok allowed =>
      cases allowed with
      | false =>
        simp only [download_page, can_fetch, hr, List.append_assoc]
        refine inv_extend _ _ h ?_ ?_ ?_ <;>
          simp [netOrderedFrom, netTarget, visitedOf, fetchesOf, hv]
      | true =>
        cases hf : env.fetchResult url with
        | error e =>
          simp only [download_page, can_fetch, hr, hf, List.append_assoc]
          refine inv_extend _ _ h ?_ ?_ ?_ <;>
            simp [netOrderedFrom, netTarget, visitedOf, fetchesOf, hv]
        | ok content =>
          simp only [download_page, can_fetch, hr, hf, List.append_assoc]
          by_cases hc : content = ""
          · simp only [hc, if_pos, reduceIte]
            refine inv_extend _ _ h ?_ ?_ ?_ <;>
              simp [netOrderedFrom, netTarget, visitedOf, fetchesOf, hv]
          · rw [if_neg hc]
            cases hw : env.writeResult (get_filename env.base_dir url) content with
            | ok u =>
              cases hp : env.parseLinks content with
              | error e =>
                simp only [save_page, hw, hp, List.append_assoc]
                refine inv_extend _ _ h ?_ ?_ ?_ <;>
                  simp [netOrderedFrom, netTarget, visitedOf, fetchesOf, hv]
              | ok hrefs =>
                simp only [save_page, hw, hp, List.append_assoc]
                refine scrapeLinksAux_inv env url child hchild hrefs _ ?_
                refine inv_extend _ _ h ?_ ?_ ?_ <;>
                  simp [netOrderedFrom, netTarget, visitedOf, fetchesOf, hv]
            | error e =>
              cases hp : env.parseLinks content with
              | error e' =>
                simp only [save_page, hw, hp, List.append_assoc]
                refine inv_extend _ _ h ?_ ?_ ?_ <;>
                  simp [netOrderedFrom, netTarget, visitedOf, fetchesOf, hv]
              | ok hrefs =>
                simp only [save_page, hw, hp, List.append_assoc]
                refine scrapeLinksAux_inv env url child hchild hrefs _ ?_
                refine inv_extend _ _ h ?_ ?_ ?_ <;>
                  simp [netOrderedFrom, netTarget, visitedOf, fetchesOf, hv]
    | error e =>
      cases hf : env.fetchResult url with
      | error e' =>
        simp only [download_page, can_fetch, hr, hf, List.append_assoc]
        refine inv_extend _ _ h ?_ ?_ ?_ <;>
          simp [netOrderedFrom, netTarget, visitedOf, fetchesOf, hv]
      | ok content =>
        simp only [download_page, can_fetch, hr, hf, List.append_assoc]
        by_cases hc : content = ""
        · simp only [hc, if_pos, reduceIte]
          refine inv_extend _ _ h ?_ ?_ ?_ <;>
            simp [netOrderedFrom, netTarget, visitedOf, fetchesOf, hv]
        · rw [if_neg hc]
          cases hw : env.writeResult (get_filename env.base_dir url) content with
          | ok u =>
            cases hp : env.parseLinks content with
            | error e' =>
              simp only [save_page, hw, hp, List.append_assoc]
              refine inv_extend _ _ h ?_ ?_ ?_ <;>
                simp [netOrderedFrom, netTarget, visitedOf, fetchesOf, hv]
            | ok hrefs =>
              simp only [save_page, hw, hp, List.append_assoc]
              refine scrapeLinksAux_inv env url child hchild hrefs _ ?_
              refine inv_extend _ _ h ?_ ?_ ?_ <;>
                simp [netOrderedFrom, netTarget, visitedOf, fetchesOf, hv]
          | error e' =>
            cases hp : env.parseLinks content with
            | error e'' =>
              simp only [save_page, hw, hp, List.append_assoc]
              refine inv_extend _ _ h ?_ ?_ ?_ <;>
                simp [netOrderedFrom, netTarget, visitedOf, fetchesOf, hv]
            | ok hrefs =>
              simp only [save_page, hw, hp, List.append_assoc]
              refine scrapeLinksAux_inv env url child hchild hrefs _ ?_
              refine inv_extend _ _ h ?_ ?_ ?_ <;>
                simp [netOrderedFrom, netTarget, visitedOf, fetchesOf, hv]

/-- The invariant is preserved by a traversal step at any depth. -/
theorem scrapeCore_inv (env : Env) :
    ∀ (fuel : Nat) (url : String) (tr : List Event), Inv tr →
      Inv (scrapeCore env fuel url tr) := by
  intro fuel
  induction fuel with
  | zero =>
    intro url tr h
    rw [scrapeCore]
    exact scrapeCoreWith_inv env 0 _ (fun u t ht => ht) url tr h
  | succ f ih =>
    intro url tr h
    rw [scrapeCore]
    exact scrapeCoreWith_inv env (f + 1) _ (fun u t ht => ih u t ht) url tr h

/-! ### Bridging lemmas. -/

/-- `scrapeCore` is `scrapeCoreWith` applied to the depth-indexed child
continuation. -/
theorem scrapeCore_eq_with (env : Env) (fuel : Nat) :
    scrapeCore env fuel = scrapeCoreWith env fuel (childOf env fuel) := by
  cases fuel <;> rfl

/-- The child continuation is exactly the recursive call
`self.scrape_website(next_url, depth - 1)` of line 132. -/
theorem childOf_eq_scrape_website (env : Env) (fuel : Nat) (u : String)
    (t : List Event) :
    childOf env fuel u t = scrape_website env u ((fuel : Int) - 1) t := by
  cases fuel with
  | zero =>
    show t = scrape_website env u (((0 : Nat) : Int) - 1) t
    rw [scrape_website, if_pos (by omega)]
  | succ f =>
    show scrapeCore env f u t = scrape_website env u (((f + 1 : Nat) : Int) - 1) t
    rw [scrape_website, if_neg (by push_cast; omega)]
    have : ((((f + 1 : Nat) : Int) - 1)).toNat = f := by push_cast; omega
    rw [this]

/-- A visited URL is ignored at every depth (line 106). -/
theorem scrapeCore_visited (env : Env) (fuel : Nat) (url : String)
    (tr : List Event) (h : url ∈ visitedOf tr) :
    scrapeCore env fuel url tr = tr := by
  cases fuel <;> simp [scrapeCore, scrapeCoreWith, h]

/-! ### Concrete runs used to exercise the theorems. -/

/-- A cyclic site: the only page links to itself. -/
def envCyc : Env :=
  { base_dir := "/out"
  , robotsResult := fun _ => Except.ok true
  , fetchResult := fun u =>
      if u = "http://a.test/" then Except.ok "<self>"
      else Except.error (FetchError.networkError "unreachable")
  , writeResult := fun _ _ => Except.ok ()
  , parseLinks := fun c =>
      if c = "<self>" then Except.ok ["http://a.test/"] else Except.ok []
  , urljoin := fun _ href => href }

/-- The origin-filter example of the spec: a page on `same.example` with four
links of which only the first two share both authority and an http(s)
scheme. -/
def envOrigin : Env :=
  { base_dir := "/out"
  , robotsResult := fun _ => Except.ok true
  , fetchResult := fun u =>
      if u = "http://same.example/" then Except.ok "<main>"
      else if u = "http://same.example/a" then Except.ok "<pa>"
      else if u = "https://same.example/b" then Except.ok "<pb>"
      else Except.error (FetchError.networkError "unreachable")
  , writeResult := fun _ _ => Except.ok ()
  , parseLinks := fun c =>
      if c = "<main>" then
        Except.ok ["http://same.example/a", "https://same.example/b",
                   "http://other.example/c", "ftp://same.example/d"]
      else Except.ok []
  , urljoin := fun _ href => href }

/-- Two URLs differing only in a trailing slash, one linking to the other. -/
def envSlash : Env :=
  { base_dir := "/out"
  , robotsResult := fun _ => Except.ok true
  , fetchResult := fun u =>
      if u = "http://ex.com/a" then Except.ok "<pg>"
      else if u = "http://ex.com/a/" then Except.ok "<leaf>"
      else Except.error (FetchError.networkError "unreachable")
  , writeResult := fun _ _ => Except.ok ()
  , parseLinks := fun c =>
      if c = "<pg>" then Except.ok ["http://ex.com/a/"] else Except.ok []
  , urljoin := fun _ href => href }

/-- Every file write fails, but pages resolve and link normally. -/
def envSaveFail : Env :=
  { base_dir := "/out"
  , robotsResult := fun _ => Except.ok true
  , fetchResult := fun u =>
      if u = "http://s.test/" then Except.ok "<root>"
      else if u = "http://s.test/kid" then Except.ok "<kid>"
      else Except.error (FetchError.networkError "unreachable")
  , writeResult := fun _ _ => Except.error "disk full"
  , parseLinks := fun c =>
      if c = "<root>" then Except.ok ["http://s.test/kid"] else Except.ok []
  , urljoin := fun _ href => href }

/-- HTML parsing raises on the fetched page. -/
def envParseFail : Env :=
  { base_dir := "/out"
  , robotsResult := fun _ => Except.ok true
  , fetchResult := fun _ => Except.ok "<bad>"
  , writeResult := fun _ _ => Except.ok ()
  , parseLinks := fun _ => Except.error "soup crashed"
  , urljoin := fun _ href => href }

/-- The robots.txt retrieval itself raises. -/
def envRobotsFail : Env :=
  { base_dir := "/out"
  , robotsResult := fun _ => Except.error "connection refused"
  , fetchResult := fun _ => Except.ok "<page>"
  , writeResult := fun _ _ => Except.ok ()
  , parseLinks := fun _ => Except.ok []
  , urljoin := fun _ href => href }

/-- robots.txt denies every URL. -/
def envDeny : Env :=
  { base_dir := "/out"
  , robotsResult := fun _ => Except.ok false
  , fetchResult := fun _ => Except.ok "<page>"
  , writeResult := fun _ _ => Except.ok ()
  , parseLinks := fun _ => Except.ok []
  , urljoin := fun _ href => href }

/-- Every request times out. -/
def envNet : Env :=
  { base_dir := "/out"
  , robotsResult := fun _ => Except.ok true
  , fetchResult := fun _ => Except.error (FetchError.networkError "connection timed out")
  , writeResult := fun _ _ => Except.ok ()
  , parseLinks := fun _ => Except.ok []
  , urljoin := fun _ href => href }

/-- Every request gets a 404 response. -/
def envStat : Env :=
  { base_dir := "/out"
  , robotsResult := fun _ => Except.ok true
  , fetchResult := fun _ =>
      Except.error (FetchError.statusError 404 "404 Client Error: Not Found")
  , writeResult := fun _ _ => Except.ok ()
  , parseLinks := fun _ => Except.ok []
  , urljoin := fun _ href => href }

/-- Every fetch succeeds with empty content. -/
def envEmpty : Env :=
  { base_dir := "/out"
  , robotsResult := fun _ => Except.ok true
  , fetchResult := fun _ => Except.ok ""
  , writeResult := fun _ _ => Except.ok ()
  , parseLinks := fun _ => Except.ok []
  , urljoin := fun _ href => href }

/-! ### The claims. -/

/-- Claim C1: on every `traverse(url, d)` call with `d ≥ 0` and `url` not yet
visited, `url` enters the visited set before any network activity — in the
event trace every robots-check and fetch-attempt event is preceded by the
`visit` event of its URL (`netOrderedFrom [] _`) — and consequently over a
whole crawl every distinct URL is submitted to at most one fetch attempt
(`(fetchesOf _).Nodup`), even on cyclic link graphs. -/
theorem scrape_visited_before_network (env : Env) (url : String) (depth : Int)
    (tr : List Event)
    (h1 : netOrderedFrom [] tr = true) (h2 : (fetchesOf tr).Nodup) :
    netOrderedFrom [] (scrape_website env url depth tr) = true
      ∧ (fetchesOf (scrape_website env url depth tr)).Nodup := by
  rw [scrape_website]
  split
  · exact ⟨h1, h2⟩
  · exact scrapeCore_inv env depth.toNat url tr ⟨h1, h2⟩

/-- Witness for C1 on a cyclic site starting from the empty trace. -/
theorem scrape_visited_before_network_witness :
    netOrderedFrom [] (scrape_website envCyc "http://a.test/" 3 []) = true
      ∧ (fetchesOf (scrape_website envCyc "http://a.test/" 3 [])).Nodup :=
  scrape_visited_before_network envCyc "http://a.test/" 3 [] rfl List.nodup_nil

/-- Claim C2: invoking traversal on an already-visited URL is a no-op at any
depth: the trace (visited set, fetches, saved files, log) is returned
unchanged — no fetch, no persistence, no recursion. -/
theorem scrape_visited_noop (env : Env) (url : String) (depth : Int)
    (tr : List Event) (h : url ∈ visitedOf tr) :
    scrape_website env url depth tr = tr := by
  rw [scrape_website]
  split
  · rfl
  · exact scrapeCore_visited env depth.toNat url tr h

/-- Witness for C2. -/
theorem scrape_visited_noop_witness :
    scrape_website envCyc "http://a.test/" 3 [Event.visit "http://a.test/"]
      = [Event.visit "http://a.test/"] :=
  scrape_visited_noop envCyc "http://a.test/" 3 [Event.visit "http://a.test/"]
    (by decide)

/-- Claim C3: a candidate link is recursed into — as
`traverse(candidate, remaining_depth - 1)` — exactly when its resolved form
has the page's authority and an http(s) scheme; and on the spec's concrete
example page only the first two of the four links are fetched. -/
theorem scrape_same_origin_filter :
    (∀ (env : Env) (fuel : Nat),
       scrapeCore env fuel = scrapeCoreWith env fuel (childOf env fuel))
    ∧ (∀ (env : Env) (url : String) (fuel : Nat) (href : String)
         (rest : List String) (tr : List Event),
       scrapeLinksAux env url (childOf env fuel) (href :: rest) tr
         = scrapeLinksAux env url (childOf env fuel) rest
             (if (urlparse (env.urljoin url href)).netloc = (urlparse url).netloc ∧
                 (urlparse (env.urljoin url href)).scheme ∈ ["http", "https"] then
                scrape_website env (env.urljoin url href) ((fuel : Int) - 1) tr
              else tr))
    ∧ fetchesOf (scrape_website envOrigin "http://same.example/" 1 [])
        = ["http://same.example/", "http://same.example/a",
           "https://same.example/b"] := by
  refine ⟨scrapeCore_eq_with, ?_, by decide⟩
  intro env url fuel href rest tr
  simp only [scrapeLinksAux]
  rw [childOf_eq_scrape_website]

/-- Claim C9: a negative remaining depth returns immediately with no work at
all: the trace is unchanged. -/
theorem negative_depth_noop (env : Env) (url : String) (depth : Int)
    (tr : List Event) (h : depth < 0) :
    scrape_website env url depth tr = tr := by
  simp [scrape_website, h]

/-- Witness for C9 at depth `-1`. -/
theorem negative_depth_noop_witness :
    scrape_website envCyc "http://a.test/" (-1) [] = [] :=
  negative_depth_noop envCyc "http://a.test/" (-1) [] (by decide)

/-- Claim C10: a successful fetch returning the empty string is treated like
a failure (`if not html_content`, line 113): the URL is visited, checked and
fetched, but nothing is persisted, no links are extracted and no recursion
happens; the URL stays in the visited set. -/
theorem empty_content_skips (env : Env) (url : String) (depth : Int)
    (tr : List Event) (hd : 0 ≤ depth) (hv : url ∉ visitedOf tr)
    (hr : env.robotsResult url = Except.ok true)
    (hf : env.fetchResult url = Except.ok "") :
    scrape_website env url depth tr
      = tr ++ [Event.visit url,
               Event.info ("Scraping (depth " ++ toString depth.toNat ++ "): " ++ url),
               Event.robotsCheck url, Event.fetchAttempt url]
    ∧ url ∈ visitedOf (scrape_website env url depth tr) := by
  have hmain : scrape_website env url depth tr
      = tr ++ [Event.visit url,
               Event.info ("Scraping (depth " ++ toString depth.toNat ++ "): " ++ url),
               Event.robotsCheck url, Event.fetchAttempt url] := by
    rw [scrape_website, if_neg (not_lt.mpr hd), scrapeCore_eq_with,
        scrapeCoreWith, if_neg hv]
    simp [download_page, can_fetch, hr, hf]
  refine ⟨hmain, ?_⟩
  rw [hmain, visitedOf_append]
  simp [visitedOf]

/-- Witness for C10. -/
theorem empty_content_skips_witness :
    scrape_website envEmpty "http://e.test/" 2 []
      = [Event.visit "http://e.test/",
         Event.info "Scraping (depth 2): http://e.test/",
         Event.robotsCheck "http://e.test/", Event.fetchAttempt "http://e.test/"]
    ∧ "http://e.test/" ∈ visitedOf (scrape_website envEmpty "http://e.test/" 2 []) := by
  have h := empty_content_skips envEmpty "http://e.test/" 2 []
    (by decide) (by decide) rfl rfl
  simpa using h

/-- Counterexample to claim C4 as stated: a persistence failure does NOT
reduce to "skip this URL's remaining work".  With every file write failing,
the root page's save error is logged, yet link extraction still runs and the
child URL is visited and fetched afterwards. -/
theorem save_failure_not_skipping_cex :
    Event.error "Failed to save http://s.test/: disk full"
        ∈ scrape_website envSaveFail "http://s.test/" 1 []
    ∧ Event.visit "http://s.test/kid"
        ∈ scrape_website envSaveFail "http://s.test/" 1 []
    ∧ Event.fetchAttempt "http://s.test/kid"
        ∈ scrape_website envSaveFail "http://s.test/" 1 [] := by
  decide

/-- Claim C4, amended: every error from processing a single URL is caught and
logged at the point of occurrence and never re-thrown.  A fetch failure ends
that URL's remaining work (no save, no parse, no recursion); a parse failure
only appends a log line after the save; a persistence failure is caught and
logged but — unlike the claim's wording — does not skip the URL's remaining
work.  Each conclusion is a plain trace extension, so the failure never
aborts sibling or ancestor traversal. -/
theorem error_containment_amended :
    (∀ (env : Env) (n : Nat) (child : String → List Event → List Event)
       (url : String) (tr : List Event) (e : FetchError),
       env.robotsResult url = Except.ok true →
       env.fetchResult url = Except.error e →
       ¬ url ∈ visitedOf tr →
       scrapeCoreWith env n child url tr
         = tr ++ [Event.visit url,
                  Event.info ("Scraping (depth " ++ toString n ++ "): " ++ url),
                  Event.robotsCheck url, Event.fetchAttempt url,
                  Event.error ("Failed to download " ++ url ++ ": "
                                 ++ FetchError.text e)])
    ∧ (∀ (env : Env) (url content : String) (tr : List Event) (e : String),
       env.writeResult (get_filename env.base_dir url) content = Except.error e →
       save_page env url content tr
         = tr ++ [Event.error ("Failed to save " ++ url ++ ": " ++ e)])
    ∧ (∀ (env : Env) (n : Nat) (child : String → List Event → List Event)
       (url content : String) (tr : List Event) (e : String),
       env.robotsResult url = Except.ok true →
       env.fetchResult url = Except.ok content →
       content ≠ "" →
       env.parseLinks content = Except.error e →
       ¬ url ∈ visitedOf tr →
       scrapeCoreWith env n child url tr
         = save_page env url content
             (tr ++ [Event.visit url,
                     Event.info ("Scraping (depth " ++ toString n ++ "): " ++ url),
                     Event.robotsCheck url, Event.fetchAttempt url])
             ++ [Event.error ("Error parsing " ++ url ++ ": " ++ e)]) := by
  refine ⟨?_, ?_, ?_⟩
  · intro env n child url tr e hr hf hv
    rw [scrapeCoreWith, if_neg hv]
    simp [download_page, can_fetch, hr, hf]
  · intro env url content tr e hw
    simp [save_page, hw]
  · intro env n child url content tr e hr hf hc hp hv
    rw [scrapeCoreWith, if_neg hv]
    simp [download_page, can_fetch, hr, hf, hc, hp]

/-- Witness for the amended C4, instantiating all three parts. -/
theorem error_containment_amended_witness :
    scrapeCoreWith envNet 0 (fun _ t => t) "http://x.test/p" []
      = [Event.visit "http://x.test/p",
         Event.info "Scraping (depth 0): http://x.test/p",
         Event.robotsCheck "http://x.test/p", Event.fetchAttempt "http://x.test/p",
         Event.error "Failed to download http://x.test/p: connection timed out"]
    ∧ save_page envSaveFail "http://s.test/" "<root>" []
        = [Event.error "Failed to save http://s.test/: disk full"]
    ∧ scrapeCoreWith envParseFail 0 (fun _ t => t) "http://p.test/" []
        = save_page envParseFail "http://p.test/" "<bad>"
            [Event.visit "http://p.test/",
             Event.info "Scraping (depth 0): http://p.test/",
             Event.robotsCheck "http://p.test/", Event.fetchAttempt "http://p.test/"]
            ++ [Event.error "Error parsing http://p.test/: soup crashed"] := by
  refine ⟨?_, ?_, ?_⟩
  · have h := error_containment_amended.1 envNet 0 (fun _ t => t) "http://x.test/p"
      [] (FetchError.networkError "connection timed out") rfl rfl (by decide)
    simpa using h
  · exact error_containment_amended.2.1 envSaveFail "http://s.test/" "<root>" []
      "disk full" rfl
  · have h := error_containment_amended.2.2 envParseFail 0 (fun _ t => t)
      "http://p.test/" "<bad>" [] "soup crashed" rfl rfl (by decide) rfl (by decide)
    simpa using h

/-- Counterexample to claim C5 as stated: `get_filename` drops the query
string (`urlparse(url).path` excludes it), so `https://ex.com/page?x=1` maps
to `.../ex.com/page.html`, not `.../ex.com/page_x_1.html`. -/
theorem get_filename_query_cex :
    get_filename "/base" "https://ex.com/page?x=1" = "/base/ex.com/page.html"
    ∧ "/base/ex.com/page.html" ≠ "/base/ex.com/page_x_1.html" := by
  decide

/-- Claim C5, amended: the first two path-mapping examples hold; for
`https://ex.com/page?x=1` the query is discarded because `urlparse` already
separates it from the path, yielding `.../ex.com/page.html`; the `?`, `&`,
`=` → `_` replacement applies only to characters inside the path component,
as the last example shows. -/
theorem get_filename_examples :
    get_filename "/base" "https://ex.com/" = "/base/ex.com/index.html"
    ∧ get_filename "/base" "https://ex.com/dir/" = "/base/ex.com/dir/index.html"
    ∧ get_filename "/base" "https://ex.com/page?x=1" = "/base/ex.com/page.html"
    ∧ get_filename "/base" "https://ex.com/p=q&r" = "/base/ex.com/p_q_r.html" := by
  decide

/-- Claim C6: if the robots.txt retrieval or parse raises, `can_fetch`
returns `True` (fail-open) after logging a warning, and the crawl proceeds
to the page fetch. -/
theorem robots_fail_open (env : Env) (url : String) (tr : List Event)
    (e : String) (h : env.robotsResult url = Except.error e) :
    can_fetch env url tr
      = (true, tr ++ [Event.robotsCheck url,
                      Event.warn ("Error checking robots.txt for " ++ url
                                    ++ ": " ++ e)])
    ∧ Event.fetchAttempt url ∈ (download_page env url tr).2 := by
  constructor
  · simp [can_fetch, h]
  · cases hf : env.fetchResult url <;> simp [download_page, can_fetch, h, hf]

/-- Witness for C6. -/
theorem robots_fail_open_witness :
    can_fetch envRobotsFail "http://r.test/" []
      = (true, [Event.robotsCheck "http://r.test/",
                Event.warn "Error checking robots.txt for http://r.test/: connection refused"])
    ∧ Event.fetchAttempt "http://r.test/"
        ∈ (download_page envRobotsFail "http://r.test/" []).2 := by
  have h := robots_fail_open envRobotsFail "http://r.test/" [] "connection refused" rfl
  simpa using h

/-- Counterexample to claim C7 as stated: the three failure kinds are NOT
distinct at `download_page`'s interface.  A robots denial, a network error
and a bad-status error all return the very same value, `None`. -/
theorem download_failure_indistinct_cex :
    (download_page envDeny "http://x.test/p" []).1 = none
    ∧ (download_page envNet "http://x.test/p" []).1 = none
    ∧ (download_page envStat "http://x.test/p" []).1 = none := by
  decide

/-- Claim C7, amended: `download_page` returns `None` for every unsuccessful
outcome; the failure kinds are distinguished only in the log — a warning for
a policy denial, an error line carrying the exception text for a network or
status failure — never in the value the caller sees. -/
theorem download_failure_returns_none :
    (∀ (env : Env) (url : String) (tr : List Event),
       env.robotsResult url = Except.ok false →
       download_page env url tr
         = (none, tr ++ [Event.robotsCheck url,
                         Event.warn ("robots.txt disallows scraping: " ++ url)]))
    ∧ (∀ (env : Env) (url : String) (tr : List Event) (e : FetchError),
       env.robotsResult url = Except.ok true →
       env.fetchResult url = Except.error e →
       download_page env url tr
         = (none, tr ++ [Event.robotsCheck url, Event.fetchAttempt url,
                         Event.error ("Failed to download " ++ url ++ ": "
                                        ++ FetchError.text e)])) := by
  constructor
  · intro env url tr hr
    simp [download_page, can_fetch, hr]
  · intro env url tr e hr hf
    simp [download_page, can_fetch, hr, hf]

/-- Witness for the amended C7: a denial and a network error both yield
`None`, with only the log line differing. -/
theorem download_failure_returns_none_witness :
    download_page envDeny "http://x.test/p" []
      = (none, [Event.robotsCheck "http://x.test/p",
                Event.warn "robots.txt disallows scraping: http://x.test/p"])
    ∧ download_page envNet "http://x.test/p" []
        = (none, [Event.robotsCheck "http://x.test/p",
                  Event.fetchAttempt "http://x.test/p",
                  Event.error "Failed to download http://x.test/p: connection timed out"]) := by
  constructor
  · have h := download_failure_returns_none.1 envDeny "http://x.test/p" [] rfl
    simpa using h
  · have h := download_failure_returns_none.2 envNet "http://x.test/p" []
      (FetchError.networkError "connection timed out") rfl rfl
    simpa using h

/-- Claim C8: visited-set membership is exact string equality with no
normalisation: visiting `u` never marks a different string `v` as visited,
and in particular `http://ex.com/a` and `http://ex.com/a/` are distinct and
both crawled. -/
theorem visited_exact_equality :
    (∀ (u v : String) (tr : List Event), u ≠ v →
       (v ∈ visitedOf (tr ++ [Event.visit u]) ↔ v ∈ visitedOf tr))
    ∧ fetchesOf (scrape_website envSlash "http://ex.com/a" 1 [])
        = ["http://ex.com/a", "http://ex.com/a/"] := by
  constructor
  · intro u v tr hne
    rw [visitedOf_append]
    simp only [visitedOf, List.mem_append, List.mem_singleton, or_iff_left_iff_imp]
    intro h
    exact absurd h.symm hne
  · decide

/-- Witness for C8: visiting `http://ex.com/a` does not mark
`http://ex.com/a/` visited. -/
theorem visited_exact_equality_witness :
    "http://ex.com/a/" ∈ visitedOf ([] ++ [Event.visit "http://ex.com/a"])
      ↔ "http://ex.com/a/" ∈ visitedOf ([] : List Event) :=
  visited_exact_equality.1 "http://ex.com/a" "http://ex.com/a/" [] (by decide)

end Webscaper
